import Mathlib

/-!
Verification development for the process lifecycle supervisor of this
repository (class `OllamaRunner` in `src/ollama_runner.py`).

The supervisor manages a single background `ollama serve` process shared by
many request threads.  We give a shallow embedding in two layers:

* functional models of the sequential pieces — the readiness prober
  `_wait_until_ready`, the provisioner `pull_model` / `_model_present`, the
  waiter decision inside `start`, the claimed-start path with its `finally`
  finalization, and `stop` run without concurrent activity;

* a small-step interleaving semantics for the concurrent behaviour: each
  thread is a program counter over the atomic sections of `start` / `stop`
  (every lock-held region of the source is one atomic step, every blocking
  operation outside the lock is its own step), the shared state is the
  supervisor's mutex-guarded fields, and a schedule is a list of actions.

Machine details that the claims do not depend on (actual pids, wall-clock
durations of HTTP requests, signal numbers) are abstracted; time in the
prober advances by the fixed 2-second sleep of the source loop.
-/

namespace OllamaRunner

/-- The exceptions that can cross the supervisor boundary.  Constructors
tagged `raw` model exception objects the supervisor did not construct
itself; the rest are the `RuntimeError`s raised in `src/ollama_runner.py`
with the corresponding messages. -/
inductive Err where
  /-- raw exception raised by `subprocess.Popen` (e.g. `FileNotFoundError`),
  re-raised unchanged by the bare `raise` in `start`'s `except` clause -/
  | spawnRaw
  /-- `RuntimeError("Ollama startup failed in another request.")` -/
  | startupWrapped
  /-- `RuntimeError("Ollama startup did not complete successfully.")` -/
  | didNotComplete
  /-- `RuntimeError("Ollama startup canceled because stop was requested.")` -/
  | canceledPre
  /-- `RuntimeError("Ollama startup canceled due to stop request.")` -/
  | canceledPoll
  /-- `RuntimeError("Ollama process exited before becoming ready.")` -/
  | exitedBeforeReady
  /-- `RuntimeError("Ollama did not become ready within ... seconds.")` -/
  | readyTimeout
  /-- raw `subprocess.CalledProcessError` from `subprocess.run(["ollama", "pull", model], check=True)` -/
  | pullRaw
deriving DecidableEq, Repr

/-- Whether the error is a `RuntimeError` constructed by the supervisor
itself (as opposed to a raw OS-level / subprocess exception type leaking
through). -/
def Err.isRuntimeError : Err → Bool
  | .spawnRaw => false
  | .pullRaw => false
  | _ => true

/-- The "startup canceled" category of the error taxonomy. -/
def Err.isCanceledErr : Err → Bool
  | .canceledPre => true
  | .canceledPoll => true
  | _ => false

/-- The "startup failure" category of the error taxonomy: the spawn failed,
the process exited before ready, the readiness deadline elapsed, or such a
failure observed by a waiting thread. -/
def Err.isStartupFailureErr : Err → Bool
  | .spawnRaw => true
  | .startupWrapped => true
  | .didNotComplete => true
  | .exitedBeforeReady => true
  | .readyTimeout => true
  | _ => false

/-- `OLLAMA_READY_TIMEOUT = int(os.environ.get("OLLAMA_READY_TIMEOUT", "60"))`:
the readiness deadline in seconds, defaulting to 60 when the environment
variable is absent. -/
def ollamaReadyTimeout (envVal : Option Nat) : Nat := envVal.getD 60

/-! ### Readiness prober: `_wait_until_ready`

The prober's environment is indexed by elapsed monotonic time `t` (seconds
since the loop started): the shared `_stop_requested` flag as observed at
`t`, the liveness of the spawned process at `t` (`poll() is None`), and the
outcome of `GET {base_url}/api/tags` issued at `t` — `none` models a
`requests.exceptions.RequestException`, `some c` a response with status
code `c`.  Each failed attempt is followed by `time.sleep(2)`, so the loop
body runs at `t = 0, 2, 4, …` while `t < deadline`. -/

structure ProbeEnv where
  stopRequested : Nat → Bool
  procAlive : Nat → Bool
  httpStatus : Nat → Option Nat

inductive ProbeResult where
  | ready (attempts : Nat)
  | canceled
  | procExited
  | timedOut
deriving DecidableEq, Repr

/-- One iteration of the `while` body of `_wait_until_ready` (lines
197–214): check `_stop_requested` under the lock, then `process.poll()`,
then attempt the HTTP request; a non-200 status or a `RequestException`
falls through to the sleep, i.e. to `next`. -/
def probeCheck (env : ProbeEnv) (t attempt : Nat) (next : ProbeResult × Nat) :
    ProbeResult × Nat :=
  if env.stopRequested t then (.canceled, t)
  else if env.procAlive t = false then (.procExited, t)
  else if env.httpStatus t = some 200 then (.ready (attempt + 1), t)
  else next

/-- The poll loop, recursing on the number of remaining iterations; returns
the result together with the elapsed time at which the loop exited. -/
def waitLoop (env : ProbeEnv) : Nat → Nat → Nat → ProbeResult × Nat
  | 0, t, _ => (.timedOut, t)
  | n + 1, t, attempt => probeCheck env t attempt (waitLoop env n (t + 2) (attempt + 1))

/-- Number of loop iterations of `_wait_until_ready` for deadline `T`:
the body runs at `t = 0, 2, …` while `t < T`, i.e. `⌈T / 2⌉` times. -/
def waitIters (T : Nat) : Nat := (T + 1) / 2

/-- `_wait_until_ready(base_url, process)` with deadline `T` seconds:
poll until ready / canceled / process exit, else time out once `t ≥ T`. -/
def wait_until_ready (env : ProbeEnv) (T : Nat) : ProbeResult × Nat :=
  waitLoop env (waitIters T) 0 0

/-- A poll iteration at time `t` takes none of the three exits: no stop
requested, process alive, and the HTTP attempt did not return 200 (it
failed at transport level or returned another status). -/
def noExitB (env : ProbeEnv) (t : Nat) : Bool :=
  !env.stopRequested t && env.procAlive t && !(env.httpStatus t == some 200)

/-! ### Supervisor shared state

The mutex-guarded fields of an `OllamaRunner` instance.  `process` models
`self._process`: `none` when no handle is stored, `some alive` when a handle
is stored, with `alive = true` iff `poll() is None` (the OS process has not
exited). -/

structure Sup where
  process : Option Bool
  startInProgress : Bool
  stopInProgress : Bool
  stopRequested : Bool
  lastStartError : Option Err
deriving DecidableEq, Repr

/-- `self._process is not None and self._process.poll() is None`. -/
def Sup.procLive (s : Sup) : Bool := s.process == some true

/-- The state after `__init__`: no process, no flags, no recorded error. -/
def idleSup : Sup :=
  { process := none, startInProgress := false, stopInProgress := false
    stopRequested := false, lastStartError := none }

/-- Lines 88–89 of `start`: claim the start — set `_start_in_progress` and
clear `_last_start_error`. -/
def claimStart (s : Sup) : Sup :=
  { s with startInProgress := true, lastStartError := none }

/-- The `finally` block of `start` (lines 110–118): clear
`_start_in_progress`, store the raised error (or `None`) in
`_last_start_error`, and drop the handle if the process has already
exited (`poll() is not None`). -/
def finalizeStart (s : Sup) (e : Option Err) : Sup :=
  let s1 : Sup := { s with startInProgress := false, lastStartError := e }
  match s1.process with
  | some false => { s1 with process := none }
  | _ => s1

/-- Outcome of `subprocess.Popen(["ollama", "serve"], …)`. -/
inductive SpawnOutcome where
  | ok
  | raised
deriving DecidableEq, Repr

/-- Map a prober outcome to the exception `_wait_until_ready` raises
(`none` on a successful return). -/
def probeErr : ProbeResult → Option Err
  | .ready _ => none
  | .canceled => some .canceledPoll
  | .procExited => some .exitedBeforeReady
  | .timedOut => some .readyTimeout

/-- The claimed path of `start` (lines 91–118), entered with the state
right after the claim: spawn the process; on spawn success publish the
handle (lines 102–104), run the prober, and in all cases run the `finally`
finalization.  Returns the final supervisor state and the error the call
raises (`none` on success).  The raw spawn exception is re-raised by the
bare `raise`, so it reaches the caller unwrapped.  The handle's liveness at
finalization time is the environment's liveness at the prober's exit
time. -/
def startClaimed (spawn : SpawnOutcome) (env : ProbeEnv) (T : Nat) (s : Sup) :
    Sup × Option Err :=
  match spawn with
  | .raised => (finalizeStart s (some .spawnRaw), some .spawnRaw)
  | .ok =>
      let sPub : Sup := { s with process := some true }
      let r := wait_until_ready env T
      let e := probeErr r.1
      let sEnd : Sup := { sPub with process := some (env.procAlive r.2) }
      (finalizeStart sEnd e, e)

/-- A full `start` call made on an idle supervisor with no concurrent
activity: the entry section claims the start (all guard conditions are
false on `idleSup`), then the claimed path runs. -/
def start_fromIdle (spawn : SpawnOutcome) (env : ProbeEnv) (T : Nat) :
    Sup × Option Err :=
  startClaimed spawn env T (claimStart idleSup)

/-- What the entry section of `start` (lines 62–89) decides once the
`_stop_in_progress` wait loop would let it through. -/
inductive EntryAction where
  /-- line 63: must keep waiting, a stop is in progress -/
  | blockedOnStop
  /-- line 67: a live process exists — return immediately -/
  | alreadyRunning
  /-- line 71: another start is in flight — enter the waiter loop -/
  | waitInFlight
  /-- lines 85–86: stop was requested — raise the cancellation error -/
  | canceled
  /-- lines 88–89: claim the start -/
  | claim
deriving DecidableEq, Repr

/-- The decision chain of `start`'s entry section, in source order. -/
def startEntryDecision (s : Sup) : EntryAction :=
  if s.stopInProgress then .blockedOnStop
  else if s.procLive then .alreadyRunning
  else if s.startInProgress then .waitInFlight
  else if s.stopRequested then .canceled
  else .claim

/-- What a thread that waited out another thread's in-flight start does on
waking (lines 76–83). -/
inductive WaiterOutcome where
  /-- line 76–78: live handle observed — return successfully -/
  | running
  /-- lines 80–81: recorded error observed — raise the wrapped failure -/
  | wrapped (e : Err)
  /-- line 83: neither — raise the generic failure -/
  | didNotComplete
deriving DecidableEq, Repr

/-- Lines 76–83 of `start`: the decision of a woken waiter. -/
def waiterDecision (s : Sup) : WaiterOutcome :=
  if s.procLive then .running
  else
    match s.lastStartError with
    | some e => .wrapped e
    | none => .didNotComplete

/-! ### Model provisioner: `pull_model` / `_model_present` -/

/-- `_model_present(model, base_url)`: `listing` is the parsed
`resp.json().get("models", [])` as the list of `m.get("name")` values, or
`none` when the request / status check / JSON parsing raised (the
`except Exception: return False` branch).  Presence is exact name
equality `m.get("name") == model`. -/
def model_present (model : String) (listing : Option (List (Option String))) : Bool :=
  match listing with
  | none => false
  | some names => names.any (fun n => n == some model)

/-- Which external calls a `pull_model` invocation performed. -/
structure PullTrace where
  queriedListing : Bool
  ranPull : Bool
deriving DecidableEq, Repr

/-- `pull_model(model, base_url)`: skip everything on an empty model name,
skip the pull when the listing shows the model, otherwise run the blocking
`ollama pull` whose failure (`check=True`) raises a raw
`CalledProcessError`.  Returns the raised error (`none` on success) and
the trace of performed calls. -/
def pull_model (model : String) (listing : Option (List (Option String)))
    (pullOk : Bool) : Option Err × PullTrace :=
  if model = "" then (none, { queriedListing := false, ranPull := false })
  else if model_present model listing then (none, { queriedListing := true, ranPull := false })
  else if pullOk then (none, { queriedListing := true, ranPull := true })
  else (some .pullRaw, { queriedListing := true, ranPull := true })

/-- `stop()` run with no concurrent start or stop in flight (lines
147–186): set `_stop_requested`, claim `_stop_in_progress`, capture the
handle; if it is absent or dead, just reset; otherwise terminate
(SIGTERM, escalating to SIGKILL) and then reset.  Returns the final state
and whether a termination attempt was made against the process. -/
def stop_noConcurrency (s : Sup) : Sup × Bool :=
  let s1 : Sup := { s with stopRequested := true, stopInProgress := true }
  if s1.procLive then
    ({ s1 with process := none, stopInProgress := false, stopRequested := false }, true)
  else
    ({ s1 with process := none, stopInProgress := false, stopRequested := false }, false)

/-! ### Small-step interleaving semantics

Each thread runs `start` or `stop` as a program over the shared `Sup`
state.  Every lock-held region of the source is one atomic step; the
unlocked blocking operations (the spawn, each readiness-poll iteration,
the termination sequence) are separate steps.  A condition-variable wait
is modelled as the stepping thread being blocked (no enabled step) while
the waited-for predicate holds — faithful to the `while pred: cv.wait()`
loops, which re-check the predicate under the lock on every wake and fall
through to the rest of the same critical section once it fails.

Between the publication of a handle (lines 102–104) and the final reset of
a stop, the thread-local `process` variables of the source alias the
shared `self._process`, so the model reads liveness from the shared field.
The outcomes of the unlocked operations (spawn success/failure, HTTP
result, the deadline elapsing) are supplied by the schedule as `Choice`
labels; an environment action `procDies` lets the OS process exit at any
time. -/

/-- Per-call result of a finished `start` or `stop` invocation. -/
inductive Outcome where
  | ok
  | error (e : Err)
deriving DecidableEq, Repr

/-- Thread program counters: `s…` for `start` (lines 60–118), `t…` for
`stop` (lines 147–186). -/
inductive PC where
  /-- about to run the entry critical section of `start` (lines 62–89);
  blocked while `_stop_in_progress` holds (line 63) -/
  | sEntry
  /-- inside the waiter loop of lines 73–74; blocked while
  `_start_in_progress` holds, then decides by lines 76–83 -/
  | sWaitStart
  /-- about to call `subprocess.Popen` (line 95), outside the lock -/
  | sSpawn
  /-- about to publish the handle and notify (lines 102–104) -/
  | sPublish
  /-- inside the `_wait_until_ready` poll loop (line 106) -/
  | sProbe
  /-- about to run the `finally` block (lines 110–118) with raised error `e` -/
  | sFinal (e : Option Err)
  /-- about to run the entry critical section of `stop` (lines 149–160);
  sets `_stop_requested` first (line 150) -/
  | tEntry
  /-- blocked in the wait loop of lines 152–153 while `_stop_in_progress` -/
  | tWaitStop
  /-- in the timed-wait loop of lines 158–160, re-checking
  `_start_in_progress and (process is None or process.poll() is not None)` -/
  | tWaitStart
  /-- about to terminate the captured live process (lines 171–178) -/
  | tTerm
  /-- about to run the reset section (lines 164–168 or 180–184) -/
  | tReset
  /-- the call returned (`ok`) or raised (`error e`) -/
  | done (o : Outcome)
deriving DecidableEq, Repr

/-- Scheduler-chosen outcome of the unlocked operation a thread performs
at its current step. -/
inductive Choice where
  /-- no choice needed (lock-held sections, waits) -/
  | go
  /-- `Popen` returns a process -/
  | spawnOk
  /-- `Popen` raises -/
  | spawnRaised
  /-- this poll iteration's HTTP request returns status 200 -/
  | httpOk
  /-- this poll iteration's HTTP request fails or returns non-200 -/
  | httpErr
  /-- the readiness deadline has elapsed: the loop guard fails -/
  | deadline
deriving DecidableEq, Repr

/-- A schedule entry: a thread takes a step, or the OS process exits. -/
inductive Act where
  | thread (tid : Nat) (c : Choice)
  | procDies
deriving DecidableEq, Repr

/-- Lines 155–160 of `stop`, entered holding the lock with
`_stop_in_progress` just observed false: claim the stop, capture the
handle, and run the first check of the timed-wait loop. -/
def stopClaimTail (s : Sup) : Sup × PC :=
  let s1 : Sup := { s with stopInProgress := true }
  if s1.startInProgress && !s1.procLive then (s1, .tWaitStart)
  else if s1.procLive then (s1, .tTerm)
  else (s1, .tReset)

/-- One atomic step of a thread at `pc` with shared state `s` and schedule
choice `c`.  Returns `none` when the thread is blocked on the condition
variable or the choice does not apply; otherwise the new shared state, the
new program counter, whether this step performed the actual spawn, and
whether it performed a termination attempt. -/
def stepThread (s : Sup) (pc : PC) (c : Choice) :
    Option (Sup × PC × Bool × Bool) :=
  match pc with
  | .sEntry =>
      match startEntryDecision s with
      | .blockedOnStop => none
      | .alreadyRunning => some (s, .done .ok, false, false)
      | .waitInFlight => some (s, .sWaitStart, false, false)
      | .canceled => some (s, .done (.error .canceledPre), false, false)
      | .claim => some (claimStart s, .sSpawn, false, false)
  | .sWaitStart =>
      if s.startInProgress then none
      else
        match waiterDecision s with
        | .running => some (s, .done .ok, false, false)
        | .wrapped _ => some (s, .done (.error .startupWrapped), false, false)
        | .didNotComplete => some (s, .done (.error .didNotComplete), false, false)
  | .sSpawn =>
      match c with
      | .spawnOk => some (s, .sPublish, true, false)
      | .spawnRaised => some (s, .sFinal (some .spawnRaw), false, false)
      | _ => none
  | .sPublish => some ({ s with process := some true }, .sProbe, false, false)
  | .sProbe =>
      match c with
      | .deadline => some (s, .sFinal (some .readyTimeout), false, false)
      | .httpOk =>
          if s.stopRequested then some (s, .sFinal (some .canceledPoll), false, false)
          else if !s.procLive then some (s, .sFinal (some .exitedBeforeReady), false, false)
          else some (s, .sFinal none, false, false)
      | .httpErr =>
          if s.stopRequested then some (s, .sFinal (some .canceledPoll), false, false)
          else if !s.procLive then some (s, .sFinal (some .exitedBeforeReady), false, false)
          else some (s, .sProbe, false, false)
      | _ => none
  | .sFinal e =>
      some (finalizeStart s e,
        .done (match e with | none => .ok | some x => .error x), false, false)
  | .tEntry =>
      let s1 : Sup := { s with stopRequested := true }
      if s1.stopInProgress then some (s1, .tWaitStop, false, false)
      else
        let r := stopClaimTail s1
        some (r.1, r.2, false, false)
  | .tWaitStop =>
      if s.stopInProgress then none
      else
        let r := stopClaimTail s
        some (r.1, r.2, false, false)
  | .tWaitStart =>
      if s.startInProgress && !s.procLive then none
      else if s.procLive then some (s, .tTerm, false, false)
      else some (s, .tReset, false, false)
  | .tTerm =>
      some ({ s with process := s.process.map (fun _ => false) }, .tReset, false, true)
  | .tReset =>
      some ({ s with process := none, stopInProgress := false, stopRequested := false },
        .done .ok, false, false)
  | .done _ => none

/-- A configuration: the shared state, the program counter of every
thread, and instrumentation counters for performed spawns and termination
attempts. -/
structure Config where
  sup : Sup
  threads : List PC
  spawnCount : Nat
  termCount : Nat
deriving DecidableEq, Repr

/-- One interleaving step. -/
def step (cfg : Config) (a : Act) : Option Config :=
  match a with
  | .procDies =>
      match cfg.sup.process with
      | some true => some { cfg with sup := { cfg.sup with process := some false } }
      | _ => none
  | .thread tid c =>
      match cfg.threads[tid]? with
      | none => none
      | some pc =>
          match stepThread cfg.sup pc c with
          | none => none
          | some (s2, pc2, sp, tm) =>
              some { sup := s2
                     threads := cfg.threads.set tid pc2
                     spawnCount := cfg.spawnCount + (if sp then 1 else 0)
                     termCount := cfg.termCount + (if tm then 1 else 0) }

/-- Run a schedule; `none` when some action was not enabled. -/
def run (cfg : Config) : List Act → Option Config
  | [] => some cfg
  | a :: rest =>
      match step cfg a with
      | none => none
      | some c2 => run c2 rest

/-- Program counters of the claimed section of `start`: the thread holds
`_start_in_progress` from the claim to the end of the `finally` block. -/
def inStartRegion : PC → Bool
  | .sSpawn => true
  | .sPublish => true
  | .sProbe => true
  | .sFinal _ => true
  | _ => false

/-- Program counters of the claimed section of `stop`: the thread holds
`_stop_in_progress` from line 155 to the end of the reset section. -/
def inStopRegion : PC → Bool
  | .tWaitStart => true
  | .tTerm => true
  | .tReset => true
  | _ => false

def startRegionCount (l : List PC) : Nat := l.countP (fun pc => inStartRegion pc)

def stopRegionCount (l : List PC) : Nat := l.countP (fun pc => inStopRegion pc)

/-- The flags mirror the claiming threads: `_start_in_progress` is true
exactly while one thread is in the claimed section of `start`, and
`_stop_in_progress` exactly while one thread is in the claimed section of
`stop`. -/
def flagsMutex (cfg : Config) : Prop :=
  startRegionCount cfg.threads = (if cfg.sup.startInProgress then 1 else 0) ∧
  stopRegionCount cfg.threads = (if cfg.sup.stopInProgress then 1 else 0)

instance : DecidablePred flagsMutex := fun cfg => by
  unfold flagsMutex
  infer_instance

/-- `n` threads all calling `start` on an idle supervisor. -/
def initStartCfg (n : Nat) : Config :=
  { sup := idleSup, threads := List.replicate n .sEntry, spawnCount := 0, termCount := 0 }

/-- `n` threads all calling `stop` on a supervisor with stored process
state `p` and no start or stop in flight. -/
def initStopCfg (p : Option Bool) (n : Nat) : Config :=
  { sup := { idleSup with process := p }, threads := List.replicate n .tEntry
    spawnCount := 0, termCount := 0 }

/-- One thread calling `start` and one calling `stop` on an idle
supervisor. -/
def initStartStopCfg : Config :=
  { sup := idleSup, threads := [.sEntry, .tEntry], spawnCount := 0, termCount := 0 }

/-! ### List helper lemmas -/

theorem countP_set_add {α : Type} (p : α → Bool) :
    ∀ (l : List α) (i : Nat) (pc x : α), l[i]? = some pc →
      (l.set i x).countP p + (if p pc then 1 else 0) =
        l.countP p + (if p x then 1 else 0) := by
  intro l
  induction l with
  | nil => intro i pc x h; simp at h
  | cons hd tl ih =>
      intro i pc x h
      cases i with
      | zero =>
          simp at h
          subst h
          simp [List.countP_cons]
          omega
      | succ j =>
          simp at h
          have h2 := ih j pc x h
          simp [List.countP_cons]
          omega

theorem countP_le_countP {α : Type} (p q : α → Bool)
    (hpq : ∀ x, q x = true → p x = true) :
    ∀ l : List α, l.countP q ≤ l.countP p := by
  intro l
  induction l with
  | nil => simp
  | cons hd tl ih =>
      simp only [List.countP_cons]
      by_cases hq : q hd = true
      · have := hpq hd hq
        simp [hq, this]; omega
      · simp only [Bool.not_eq_true] at hq
        simp [hq]
        by_cases hp : p hd = true <;> simp [hp] <;> omega

theorem countP_lt_countP_of_idx {α : Type} (p q : α → Bool)
    (hpq : ∀ x, q x = true → p x = true) :
    ∀ (l : List α) (i : Nat) (pc : α), l[i]? = some pc →
      p pc = true → q pc = false → l.countP q < l.countP p := by
  intro l
  induction l with
  | nil => intro i pc h; simp at h
  | cons hd tl ih =>
      intro i pc h hp hq
      cases i with
      | zero =>
          simp at h
          subst h
          have := countP_le_countP p q hpq tl
          simp [List.countP_cons, hp, hq]
          omega
      | succ j =>
          simp at h
          have h2 := ih j pc h hp hq
          simp only [List.countP_cons]
          by_cases hqh : q hd = true
          · have := hpq hd hqh
            simp [hqh, this]; omega
          · simp only [Bool.not_eq_true] at hqh
            simp [hqh]
            by_cases hph : p hd = true <;> simp [hph] <;> omega

theorem countP_pos_of_idx {α : Type} (p : α → Bool) :
    ∀ (l : List α) (i : Nat) (pc : α), l[i]? = some pc → p pc = true →
      1 ≤ l.countP p := by
  intro l i pc h hp
  have hmem := List.getElem?_mem h
  have : 0 < l.countP p := List.countP_pos_iff.mpr ⟨pc, hmem, hp⟩
  omega

theorem countP_replicate_zero {α : Type} (p : α → Bool) (x : α) (hx : p x = false) :
    ∀ n, (List.replicate n x).countP p = 0 := by
  intro n
  induction n with
  | zero => simp
  | succ m ih => simp [List.replicate_succ, List.countP_cons, hx, ih]

/-! ### Prober characterization lemmas -/

theorem noExitB_split (env : ProbeEnv) (t : Nat) (h : noExitB env t = true) :
    env.stopRequested t = false ∧ env.procAlive t = true ∧
      ¬(env.httpStatus t = some 200) := by
  simp only [noExitB, Bool.and_eq_true, Bool.not_eq_true', beq_iff_eq,
    beq_eq_false_iff_ne, ne_eq] at h
  exact ⟨h.1.1, h.1.2, h.2⟩

theorem waitLoop_noExit_step (env : ProbeEnv) (t a m : Nat)
    (h : noExitB env t = true) :
    waitLoop env (m + 1) t a = waitLoop env m (t + 2) (a + 1) := by
  have h2 := noExitB_split env t h
  simp [waitLoop, probeCheck, h2.1, h2.2.1, h2.2.2]

theorem waitLoop_skip (env : ProbeEnv) :
    ∀ (k t a n : Nat), k ≤ n → (∀ j, j < k → noExitB env (t + 2 * j) = true) →
      waitLoop env n t a = waitLoop env (n - k) (t + 2 * k) (a + k) := by
  intro k
  induction k with
  | zero => intro t a n _ _; simp
  | succ m ih =>
      intro t a n hk hall
      obtain ⟨n1, rfl⟩ : ∃ n1, n = n1 + 1 := ⟨n - 1, by omega⟩
      have h0 : noExitB env t = true := by
        have := hall 0 (by omega)
        simpa using this
      rw [waitLoop_noExit_step env t a n1 h0]
      have hrest : ∀ j, j < m → noExitB env (t + 2 + 2 * j) = true := by
        intro j hj
        have := hall (j + 1) (by omega)
        have harith : t + 2 * (j + 1) = t + 2 + 2 * j := by ring
        rwa [harith] at this
      have := ih (t + 2) (a + 1) n1 (by omega) hrest
      rw [this]
      have h1 : n1 - m = n1 + 1 - (m + 1) := by omega
      have h2 : t + 2 + 2 * m = t + 2 * (m + 1) := by ring
      have h3 : a + 1 + m = a + (m + 1) := by omega
      rw [h1, h2, h3]

theorem waitLoop_timedOut_iff (env : ProbeEnv) :
    ∀ (n t a : Nat), (waitLoop env n t a).1 = .timedOut ↔
      ∀ j, j < n → noExitB env (t + 2 * j) = true := by
  intro n
  induction n with
  | zero =>
      intro t a
      simp [waitLoop]
  | succ m ih =>
      intro t a
      by_cases h0 : noExitB env t = true
      · rw [waitLoop_noExit_step env t a m h0]
        rw [ih (t + 2) (a + 1)]
        constructor
        · intro hall j hj
          cases j with
          | zero => simpa using h0
          | succ i =>
              have := hall i (by omega)
              have harith : t + 2 + 2 * i = t + 2 * (i + 1) := by ring
              rwa [harith] at this
        · intro hall j hj
          have := hall (j + 1) (by omega)
          have harith : t + 2 * (j + 1) = t + 2 + 2 * j := by ring
          rwa [harith] at this
      · have hR : ¬ ∀ j, j < m + 1 → noExitB env (t + 2 * j) = true := by
          intro hall
          exact h0 (by simpa using hall 0 (by omega))
        have hL : (waitLoop env (m + 1) t a).1 ≠ .timedOut := by
          by_cases h1 : env.stopRequested t = true
          · simp [waitLoop, probeCheck, h1]
          · replace h1 : env.stopRequested t = false := by simpa using h1
            by_cases h2 : env.procAlive t = false
            · simp [waitLoop, probeCheck, h1, h2]
            · replace h2 : env.procAlive t = true := by simpa using h2
              have h3 : env.httpStatus t = some 200 := by
                have hx := h0
                simp [noExitB, h1, h2] at hx
                exact hx
              simp [waitLoop, probeCheck, h1, h2, h3]
        constructor
        · intro h; exact absurd h hL
        · intro h; exact absurd h hR

theorem waitLoop_exit_at (env : ProbeEnv) (n t a k : Nat) (hk : k < n)
    (hall : ∀ j, j < k → noExitB env (t + 2 * j) = true) :
    waitLoop env n t a =
      probeCheck env (t + 2 * k) (a + k)
        (waitLoop env (n - k - 1) (t + 2 * k + 2) (a + k + 1)) := by
  rw [waitLoop_skip env k t a n (by omega) hall]
  obtain ⟨m, hm⟩ : ∃ m, n - k = m + 1 := ⟨n - k - 1, by omega⟩
  rw [hm]
  have : m = n - k - 1 := by omega
  rw [this]
  rfl

/-! ### Structural facts about the atomic sections -/

theorem startEntryDecision_claim {s : Sup} (h : startEntryDecision s = .claim) :
    s.stopInProgress = false ∧ s.procLive = false ∧ s.startInProgress = false ∧
      s.stopRequested = false := by
  unfold startEntryDecision at h
  split_ifs at h with h1 h2 h3 h4 <;> simp_all

theorem startEntryDecision_canceled {s : Sup}
    (h1 : s.stopInProgress = false) (h2 : s.procLive = false)
    (h3 : s.startInProgress = false) (h4 : s.stopRequested = true) :
    startEntryDecision s = .canceled := by
  unfold startEntryDecision
  simp [h1, h2, h3, h4]

theorem finalizeStart_spec (s : Sup) (e : Option Err) :
    (finalizeStart s e).startInProgress = false ∧
    (finalizeStart s e).lastStartError = e ∧
    (finalizeStart s e).stopInProgress = s.stopInProgress ∧
    (finalizeStart s e).stopRequested = s.stopRequested ∧
    (finalizeStart s e).process ≠ some false := by
  unfold finalizeStart
  rcases hp : s.process with _ | b
  · simp [hp]
  · cases b <;> simp [hp]

theorem stopClaimTail_spec (s : Sup) :
    (stopClaimTail s).1.stopInProgress = true ∧
    (stopClaimTail s).1.startInProgress = s.startInProgress ∧
    (stopClaimTail s).1.process = s.process ∧
    (stopClaimTail s).1.stopRequested = s.stopRequested ∧
    inStopRegion (stopClaimTail s).2 = true ∧
    inStartRegion (stopClaimTail s).2 = false := by
  simp only [stopClaimTail]
  split_ifs <;> simp [inStopRegion, inStartRegion]

/-- Classification of how one thread step can change the two in-progress
flags: each flag is either untouched (with the thread staying on its side
of the corresponding claimed region's boundary), or set while entering the
region from a state where it was clear, or cleared while leaving the
region. -/
theorem stepThread_classify {s : Sup} {pc : PC} {c : Choice} {s2 : Sup} {pc2 : PC}
    {b1 b2 : Bool} (h : stepThread s pc c = some (s2, pc2, b1, b2)) :
    ((s2.startInProgress = s.startInProgress ∧ inStartRegion pc2 = inStartRegion pc) ∨
     (s.startInProgress = false ∧ s2.startInProgress = true ∧
       inStartRegion pc = false ∧ inStartRegion pc2 = true) ∨
     (s2.startInProgress = false ∧ inStartRegion pc = true ∧ inStartRegion pc2 = false)) ∧
    ((s2.stopInProgress = s.stopInProgress ∧ inStopRegion pc2 = inStopRegion pc) ∨
     (s.stopInProgress = false ∧ s2.stopInProgress = true ∧
       inStopRegion pc = false ∧ inStopRegion pc2 = true) ∨
     (s2.stopInProgress = false ∧ inStopRegion pc = true ∧ inStopRegion pc2 = false)) := by
  cases pc <;> simp only [stepThread] at h
  case sEntry =>
      rcases hd : startEntryDecision s <;> rw [hd] at h <;>
        simp only [Option.some.injEq, Prod.mk.injEq] at h
      case blockedOnStop => simp at h
      case alreadyRunning =>
          obtain ⟨rfl, rfl, -, -⟩ := h
          exact ⟨Or.inl ⟨rfl, rfl⟩, Or.inl ⟨rfl, rfl⟩⟩
      case waitInFlight =>
          obtain ⟨rfl, rfl, -, -⟩ := h
          exact ⟨Or.inl ⟨rfl, rfl⟩, Or.inl ⟨rfl, rfl⟩⟩
      case canceled =>
          obtain ⟨rfl, rfl, -, -⟩ := h
          exact ⟨Or.inl ⟨rfl, rfl⟩, Or.inl ⟨rfl, rfl⟩⟩
      case claim =>
          obtain ⟨rfl, rfl, -, -⟩ := h
          have hc := startEntryDecision_claim hd
          exact ⟨Or.inr (Or.inl ⟨hc.2.2.1, rfl, rfl, rfl⟩), Or.inl ⟨rfl, rfl⟩⟩
  case sWaitStart =>
      split at h
      · simp at h
      · rcases hw : waiterDecision s <;> rw [hw] at h <;>
          simp only [Option.some.injEq, Prod.mk.injEq] at h <;>
          obtain ⟨rfl, rfl, -, -⟩ := h <;>
          exact ⟨Or.inl ⟨rfl, rfl⟩, Or.inl ⟨rfl, rfl⟩⟩
  case sSpawn =>
      rcases c
      case spawnOk =>
          simp only [Option.some.injEq, Prod.mk.injEq] at h
          obtain ⟨rfl, rfl, -, -⟩ := h
          exact ⟨Or.inl ⟨rfl, rfl⟩, Or.inl ⟨rfl, rfl⟩⟩
      case spawnRaised =>
          simp only [Option.some.injEq, Prod.mk.injEq] at h
          obtain ⟨rfl, rfl, -, -⟩ := h
          exact ⟨Or.inl ⟨rfl, rfl⟩, Or.inl ⟨rfl, rfl⟩⟩
      all_goals simp at h
  case sPublish =>
      simp only [Option.some.injEq, Prod.mk.injEq] at h
      obtain ⟨rfl, rfl, -, -⟩ := h
      exact ⟨Or.inl ⟨rfl, rfl⟩, Or.inl ⟨rfl, rfl⟩⟩
  case sProbe =>
      rcases c
      case httpOk =>
          split_ifs at h <;> simp only [Option.some.injEq, Prod.mk.injEq] at h <;>
            obtain ⟨rfl, rfl, -, -⟩ := h <;>
            exact ⟨Or.inl ⟨rfl, rfl⟩, Or.inl ⟨rfl, rfl⟩⟩
      case httpErr =>
          split_ifs at h <;> simp only [Option.some.injEq, Prod.mk.injEq] at h <;>
            obtain ⟨rfl, rfl, -, -⟩ := h <;>
            exact ⟨Or.inl ⟨rfl, rfl⟩, Or.inl ⟨rfl, rfl⟩⟩
      case deadline =>
          simp only [Option.some.injEq, Prod.mk.injEq] at h
          obtain ⟨rfl, rfl, -, -⟩ := h
          exact ⟨Or.inl ⟨rfl, rfl⟩, Or.inl ⟨rfl, rfl⟩⟩
      all_goals simp at h
  case sFinal e =>
      simp only [Option.some.injEq, Prod.mk.injEq] at h
      obtain ⟨rfl, rfl, -, -⟩ := h
      have hf := finalizeStart_spec s e
      exact ⟨Or.inr (Or.inr ⟨hf.1, rfl, rfl⟩), Or.inl ⟨hf.2.2.1, rfl⟩⟩
  case tEntry =>
      split at h
      · simp only [Option.some.injEq, Prod.mk.injEq] at h
        obtain ⟨rfl, rfl, -, -⟩ := h
        exact ⟨Or.inl ⟨rfl, rfl⟩, Or.inl ⟨rfl, rfl⟩⟩
      · simp only [Option.some.injEq, Prod.mk.injEq] at h
        obtain ⟨rfl, rfl, -, -⟩ := h
        rename_i hcond
        simp only [Bool.not_eq_true] at hcond
        have ht := stopClaimTail_spec { s with stopRequested := true }
        refine ⟨Or.inl ⟨ht.2.1, ht.2.2.2.2.2⟩, Or.inr (Or.inl ⟨hcond, ht.1, rfl, ht.2.2.2.2.1⟩)⟩
  case tWaitStop =>
      split at h
      · simp at h
      · simp only [Option.some.injEq, Prod.mk.injEq] at h
        obtain ⟨rfl, rfl, -, -⟩ := h
        rename_i hcond
        simp only [Bool.not_eq_true] at hcond
        have ht := stopClaimTail_spec s
        refine ⟨Or.inl ⟨ht.2.1, ht.2.2.2.2.2⟩, Or.inr (Or.inl ⟨hcond, ht.1, rfl, ht.2.2.2.2.1⟩)⟩
  case tWaitStart =>
      split at h
      · simp at h
      · split_ifs at h <;> simp only [Option.some.injEq, Prod.mk.injEq] at h <;>
          obtain ⟨rfl, rfl, -, -⟩ := h <;>
          exact ⟨Or.inl ⟨rfl, rfl⟩, Or.inl ⟨rfl, rfl⟩⟩
  case tTerm =>
      simp only [Option.some.injEq, Prod.mk.injEq] at h
      obtain ⟨rfl, rfl, -, -⟩ := h
      exact ⟨Or.inl ⟨rfl, rfl⟩, Or.inl ⟨rfl, rfl⟩⟩
  case tReset =>
      simp only [Option.some.injEq, Prod.mk.injEq] at h
      obtain ⟨rfl, rfl, -, -⟩ := h
      exact ⟨Or.inl ⟨rfl, rfl⟩, Or.inr (Or.inr ⟨rfl, rfl, rfl⟩)⟩
  case done o => simp at h

theorem ite_bool_true (x y : Nat) : (if (true : Bool) = true then x else y) = x := rfl

theorem ite_bool_false (x y : Nat) : (if (false : Bool) = true then x else y) = y := rfl

theorem eq_one_of_if (n : Nat) (b : Bool) (hb : b = true)
    (h : n = if b then 1 else 0) : n = 1 := by
  rw [hb] at h
  simpa using h

theorem eq_zero_of_if (n : Nat) (b : Bool) (hb : b = false)
    (h : n = if b then 1 else 0) : n = 0 := by
  rw [hb] at h
  simpa using h

/-- How a claimed-region count evolves under the flag classification. -/
theorem count_flag_update (p : PC → Bool) (l : List PC) (tid : Nat) (pc pc2 : PC)
    (oldFlag newFlag : Bool) (hget : l[tid]? = some pc)
    (hm : l.countP p = if oldFlag then 1 else 0)
    (hcl : (newFlag = oldFlag ∧ p pc2 = p pc) ∨
           (oldFlag = false ∧ newFlag = true ∧ p pc = false ∧ p pc2 = true) ∨
           (newFlag = false ∧ p pc = true ∧ p pc2 = false)) :
    (l.set tid pc2).countP p = if newFlag then 1 else 0 := by
  have hadd := countP_set_add p l tid pc pc2 hget
  rcases hcl with ⟨e1, e2⟩ | ⟨e1, e2, e3, e4⟩ | ⟨e1, e2, e3⟩
  · rw [e2] at hadd
    rw [e1]
    omega
  · rw [e3, e4] at hadd
    rw [e1] at hm
    rw [e2]
    simp only [ite_bool_true, ite_bool_false] at hm hadd ⊢
    omega
  · have hpos := countP_pos_of_idx p l tid pc hget e2
    rw [e2, e3] at hadd
    rw [e1]
    cases hb : oldFlag
    · rw [hb] at hm
      simp only [ite_bool_true, ite_bool_false] at hm hadd ⊢
      omega
    · rw [hb] at hm
      simp only [ite_bool_true, ite_bool_false] at hm hadd ⊢
      omega

/-- Single-step preservation of the flag/claimant correspondence. -/
theorem step_flagsMutex {cfg cfg2 : Config} {a : Act}
    (h : step cfg a = some cfg2) (hm : flagsMutex cfg) : flagsMutex cfg2 := by
  obtain ⟨hm1, hm2⟩ := hm
  cases a with
  | procDies =>
      simp only [step] at h
      split at h
      · simp only [Option.some.injEq] at h
        subst h
        exact ⟨hm1, hm2⟩
      · simp at h
  | thread tid c =>
      simp only [step] at h
      split at h
      · simp at h
      · rename_i pc hget
        split at h
        · simp at h
        · rename_i s2 pc2 b1 b2 hst
          simp only [Option.some.injEq] at h
          subst h
          obtain ⟨hcs, hcp⟩ := stepThread_classify hst
          constructor
          · exact count_flag_update (fun pc => inStartRegion pc) cfg.threads tid pc pc2
              cfg.sup.startInProgress s2.startInProgress hget hm1 (by
                rcases hcs with ⟨e1, e2⟩ | ⟨e1, e2, e3, e4⟩ | ⟨e1, e2, e3⟩
                · exact Or.inl ⟨e1, e2⟩
                · exact Or.inr (Or.inl ⟨e1, e2, e3, e4⟩)
                · exact Or.inr (Or.inr ⟨e1, e2, e3⟩))
          · exact count_flag_update (fun pc => inStopRegion pc) cfg.threads tid pc pc2
              cfg.sup.stopInProgress s2.stopInProgress hget hm2 (by
                rcases hcp with ⟨e1, e2⟩ | ⟨e1, e2, e3, e4⟩ | ⟨e1, e2, e3⟩
                · exact Or.inl ⟨e1, e2⟩
                · exact Or.inr (Or.inl ⟨e1, e2, e3, e4⟩)
                · exact Or.inr (Or.inr ⟨e1, e2, e3⟩))

/-- The flag/claimant correspondence is an invariant of every execution. -/
theorem run_flagsMutex :
    ∀ (acts : List Act) (cfg cfg2 : Config), run cfg acts = some cfg2 →
      flagsMutex cfg → flagsMutex cfg2 := by
  intro acts
  induction acts with
  | nil =>
      intro cfg cfg2 h hm
      simp only [run, Option.some.injEq] at h
      subst h
      exact hm
  | cons a rest ih =>
      intro cfg cfg2 h hm
      simp only [run] at h
      rcases hs : step cfg a with _ | cmid
      · rw [hs] at h; simp at h
      · rw [hs] at h
        exact ih cmid cfg2 h (step_flagsMutex hs hm)

/-! ### Invariant for concurrent `stop` calls -/

/-- Stop program counters of a call that has not yet returned (past the
point where it set `_stop_requested`). -/
def stopUnfinished : PC → Bool
  | .tWaitStop => true
  | .tWaitStart => true
  | .tTerm => true
  | .tReset => true
  | _ => false

/-- Program counters reachable by a thread running `stop`. -/
def stopOnlyPC : PC → Bool
  | .tEntry => true
  | .tWaitStop => true
  | .tWaitStart => true
  | .tTerm => true
  | .tReset => true
  | .done _ => true
  | _ => false

/-- Number of threads about to perform a termination attempt. -/
def tTermCount (l : List PC) : Nat := l.countP (fun pc => pc == PC.tTerm)

theorem getElem?_set_of_get {α : Type} (l : List α) (i : Nat) (a b : α)
    (h : l[i]? = some a) : (l.set i b)[i]? = some b := by
  rw [List.getElem?_set_self', h]
  rfl

theorem tTermCount_le_stopRegion (l : List PC) : tTermCount l ≤ stopRegionCount l :=
  countP_le_countP _ _
    (fun x hx => by
      have hx2 : x = PC.tTerm := by simpa using hx
      subst hx2
      rfl) l

theorem tTermCount_set_eq (l : List PC) (tid : Nat) (pc pc2 : PC)
    (hget : l[tid]? = some pc) (h1 : (pc == PC.tTerm) = (pc2 == PC.tTerm)) :
    tTermCount (l.set tid pc2) = tTermCount l := by
  have hadd := countP_set_add (fun x => x == PC.tTerm) l tid pc pc2 hget
  dsimp only at hadd
  rw [h1] at hadd
  unfold tTermCount
  cases hb : (pc2 == PC.tTerm) <;> rw [hb] at hadd <;> simp at hadd <;> omega

theorem tTermCount_set_incr (l : List PC) (tid : Nat) (pc pc2 : PC)
    (hget : l[tid]? = some pc) (h1 : (pc == PC.tTerm) = false)
    (h2 : (pc2 == PC.tTerm) = true) :
    tTermCount (l.set tid pc2) = tTermCount l + 1 := by
  have hadd := countP_set_add (fun x => x == PC.tTerm) l tid pc pc2 hget
  dsimp only at hadd
  rw [h1, h2] at hadd
  simp at hadd
  unfold tTermCount
  omega

theorem tTermCount_set_decr (l : List PC) (tid : Nat) (pc pc2 : PC)
    (hget : l[tid]? = some pc) (h1 : (pc == PC.tTerm) = true)
    (h2 : (pc2 == PC.tTerm) = false) :
    tTermCount (l.set tid pc2) + 1 = tTermCount l := by
  have hadd := countP_set_add (fun x => x == PC.tTerm) l tid pc pc2 hget
  dsimp only at hadd
  rw [h1, h2] at hadd
  simp at hadd
  unfold tTermCount
  omega

theorem stopClaimTail_pc (s : Sup) :
    (stopClaimTail s).2 = .tWaitStart ∨
    ((stopClaimTail s).2 = .tTerm ∧ s.procLive = true) ∨
    (stopClaimTail s).2 = .tReset := by
  simp only [stopClaimTail]
  split_ifs with h1 h2
  · exact Or.inl rfl
  · exact Or.inr (Or.inl ⟨rfl, h2⟩)
  · exact Or.inr (Or.inr rfl)

/-- Inductive invariant for executions in which every thread runs `stop`:
the flag correspondence holds, every thread is on a stop program counter,
performed plus in-flight termination attempts never exceed one, no
termination attempt has been performed while the stored process is live,
and `stopRequested` is set only while some stop call is unfinished. -/
def stopInv (cfg : Config) : Prop :=
  flagsMutex cfg ∧
  (∀ pc ∈ cfg.threads, stopOnlyPC pc = true) ∧
  cfg.termCount + tTermCount cfg.threads ≤ 1 ∧
  (cfg.sup.procLive = true → cfg.termCount = 0) ∧
  (cfg.sup.stopRequested = true →
    ∃ (j : Nat) (pcw : PC), cfg.threads[j]? = some pcw ∧ stopUnfinished pcw = true)

theorem step_stopInv {cfg cfg2 : Config} {a : Act}
    (h : step cfg a = some cfg2) (hi : stopInv cfg) : stopInv cfg2 := by
  obtain ⟨hmx, honly, hsum, hlive, hreq⟩ := hi
  have hmx2 : flagsMutex cfg2 := step_flagsMutex h hmx
  cases a with
  | procDies =>
      simp only [step] at h
      split at h
      · rename_i hp
        simp only [Option.some.injEq] at h
        subst h
        refine ⟨hmx2, honly, hsum, ?_, hreq⟩
        intro hl
        simp [Sup.procLive] at hl
      · simp at h
  | thread tid c =>
      simp only [step] at h
      split at h
      · simp at h
      · rename_i pc hget
        split at h
        · simp at h
        · rename_i s2 pc2 b1 b2 hst
          simp only [Option.some.injEq] at h
          subst h
          have hpconly := honly pc (List.getElem?_mem hget)
          have honly2 : ∀ q : PC, stopOnlyPC q = true →
              ∀ x ∈ cfg.threads.set tid q, stopOnlyPC x = true := by
            intro q hq x hx
            rcases List.mem_or_eq_of_mem_set hx with hx2 | rfl
            · exact honly x hx2
            · exact hq
          have hwit : ∀ q : PC, stopUnfinished q = true →
              ∃ (j : Nat) (pcw : PC), (cfg.threads.set tid q)[j]? = some pcw ∧
                stopUnfinished pcw = true :=
            fun q hq => ⟨tid, q, getElem?_set_of_get cfg.threads tid pc q hget, hq⟩
          cases pc <;> simp only [stopOnlyPC] at hpconly
          case sEntry => exact absurd hpconly (by simp)
          case sWaitStart => exact absurd hpconly (by simp)
          case sSpawn => exact absurd hpconly (by simp)
          case sPublish => exact absurd hpconly (by simp)
          case sProbe => exact absurd hpconly (by simp)
          case sFinal e => exact absurd hpconly (by simp)
          case done o => simp only [stepThread] at hst; simp at hst
          case tEntry =>
              simp only [stepThread] at hst
              split at hst
              · rename_i hcond
                simp only [Option.some.injEq, Prod.mk.injEq] at hst
                obtain ⟨rfl, rfl, rfl, rfl⟩ := hst
                refine ⟨hmx2, honly2 .tWaitStop rfl, ?_, ?_, ?_⟩
                · rw [tTermCount_set_eq cfg.threads tid .tEntry .tWaitStop hget rfl]
                  simpa using hsum
                · intro hl
                  simp only [ite_bool_false]
                  exact hlive (by simpa [Sup.procLive] using hl)
                · intro _
                  exact hwit .tWaitStop rfl
              · rename_i hcond
                simp only [Option.some.injEq, Prod.mk.injEq] at hst
                obtain ⟨rfl, rfl, rfl, rfl⟩ := hst
                have hspec := stopClaimTail_spec { cfg.sup with stopRequested := true }
                have hcond2 : cfg.sup.stopInProgress = false := by
                  simpa using hcond
                have hT0 : tTermCount cfg.threads = 0 := by
                  have h1 := tTermCount_le_stopRegion cfg.threads
                  have h2 := eq_zero_of_if _ _ hcond2 hmx.2
                  omega
                rcases stopClaimTail_pc { cfg.sup with stopRequested := true } with
                  hw | ⟨hw, hlv⟩ | hw
                · refine ⟨hmx2, ?_, ?_, ?_, ?_⟩
                  · rw [hw]; exact honly2 .tWaitStart rfl
                  · rw [hw, tTermCount_set_eq cfg.threads tid .tEntry .tWaitStart hget rfl]
                    simpa using hsum
                  · intro hl
                    simp only [ite_bool_false]
                    have : cfg.sup.procLive = true := by
                      have := hspec.2.2.1
                      simpa [Sup.procLive, this] using hl
                    exact hlive this
                  · intro _
                    rw [hw]
                    exact hwit .tWaitStart rfl
                · have hlv2 : cfg.sup.procLive = true := by
                    simpa [Sup.procLive] using hlv
                  refine ⟨hmx2, ?_, ?_, ?_, ?_⟩
                  · rw [hw]; exact honly2 .tTerm rfl
                  · rw [hw, tTermCount_set_incr cfg.threads tid .tEntry .tTerm hget rfl rfl]
                    have := hlive hlv2
                    simp only [ite_bool_false]
                    omega
                  · intro hl
                    simp only [ite_bool_false]
                    exact hlive hlv2
                  · intro _
                    rw [hw]
                    exact hwit .tTerm rfl
                · refine ⟨hmx2, ?_, ?_, ?_, ?_⟩
                  · rw [hw]; exact honly2 .tReset rfl
                  · rw [hw, tTermCount_set_eq cfg.threads tid .tEntry .tReset hget rfl]
                    simpa using hsum
                  · intro hl
                    simp only [ite_bool_false]
                    have : cfg.sup.procLive = true := by
                      have := hspec.2.2.1
                      simpa [Sup.procLive, this] using hl
                    exact hlive this
                  · intro _
                    rw [hw]
                    exact hwit .tReset rfl
          case tWaitStop =>
              simp only [stepThread] at hst
              split at hst
              · simp at hst
              · rename_i hcond
                simp only [Option.some.injEq, Prod.mk.injEq] at hst
                obtain ⟨rfl, rfl, rfl, rfl⟩ := hst
                have hspec := stopClaimTail_spec cfg.sup
                have hcond2 : cfg.sup.stopInProgress = false := by
                  simpa using hcond
                have hT0 : tTermCount cfg.threads = 0 := by
                  have h1 := tTermCount_le_stopRegion cfg.threads
                  have h2 := eq_zero_of_if _ _ hcond2 hmx.2
                  omega
                rcases stopClaimTail_pc cfg.sup with hw | ⟨hw, hlv⟩ | hw
                · refine ⟨hmx2, ?_, ?_, ?_, ?_⟩
                  · rw [hw]; exact honly2 .tWaitStart rfl
                  · rw [hw, tTermCount_set_eq cfg.threads tid .tWaitStop .tWaitStart hget rfl]
                    simpa using hsum
                  · intro hl
                    simp only [ite_bool_false]
                    have : cfg.sup.procLive = true := by
                      have := hspec.2.2.1
                      simpa [Sup.procLive, this] using hl
                    exact hlive this
                  · intro _
                    rw [hw]
                    exact hwit .tWaitStart rfl
                · refine ⟨hmx2, ?_, ?_, ?_, ?_⟩
                  · rw [hw]; exact honly2 .tTerm rfl
                  · rw [hw, tTermCount_set_incr cfg.threads tid .tWaitStop .tTerm hget rfl rfl]
                    have := hlive hlv
                    simp only [ite_bool_false]
                    omega
                  · intro hl
                    simp only [ite_bool_false]
                    exact hlive hlv
                  · intro _
                    rw [hw]
                    exact hwit .tTerm rfl
                · refine ⟨hmx2, ?_, ?_, ?_, ?_⟩
                  · rw [hw]; exact honly2 .tReset rfl
                  · rw [hw, tTermCount_set_eq cfg.threads tid .tWaitStop .tReset hget rfl]
                    simpa using hsum
                  · intro hl
                    simp only [ite_bool_false]
                    have : cfg.sup.procLive = true := by
                      have := hspec.2.2.1
                      simpa [Sup.procLive, this] using hl
                    exact hlive this
                  · intro _
                    rw [hw]
                    exact hwit .tReset rfl
          case tWaitStart =>
              simp only [stepThread] at hst
              split at hst
              · simp at hst
              · split_ifs at hst with hlv
                · simp only [Option.some.injEq, Prod.mk.injEq] at hst
                  obtain ⟨rfl, rfl, rfl, rfl⟩ := hst
                  have hT0 : tTermCount cfg.threads = 0 := by
                    have h1 : tTermCount cfg.threads < stopRegionCount cfg.threads :=
                      countP_lt_countP_of_idx
                        (fun x => inStopRegion x) (fun x => x == PC.tTerm)
                        (fun x hx => by
                          have hx2 : x = PC.tTerm := by simpa using hx
                          subst hx2
                          rfl)
                        cfg.threads tid .tWaitStart hget rfl rfl
                    rcases hb : cfg.sup.stopInProgress
                    · have h3 := eq_zero_of_if _ _ hb hmx.2
                      omega
                    · have h3 := eq_one_of_if _ _ hb hmx.2
                      omega
                  refine ⟨hmx2, honly2 .tTerm rfl, ?_, ?_, ?_⟩
                  · rw [tTermCount_set_incr cfg.threads tid .tWaitStart .tTerm hget rfl rfl]
                    have := hlive hlv
                    simp only [ite_bool_false]
                    omega
                  · intro hl
                    simp only [ite_bool_false]
                    exact hlive hlv
                  · intro _
                    exact hwit .tTerm rfl
                · simp only [Option.some.injEq, Prod.mk.injEq] at hst
                  obtain ⟨rfl, rfl, rfl, rfl⟩ := hst
                  refine ⟨hmx2, honly2 .tReset rfl, ?_, ?_, ?_⟩
                  · rw [tTermCount_set_eq cfg.threads tid .tWaitStart .tReset hget rfl]
                    simpa using hsum
                  · intro hl
                    simp only [ite_bool_false]
                    exact hlive hl
                  · intro _
                    exact hwit .tReset rfl
          case tTerm =>
              simp only [stepThread] at hst
              simp only [Option.some.injEq, Prod.mk.injEq] at hst
              obtain ⟨rfl, rfl, rfl, rfl⟩ := hst
              have hT1 : 1 ≤ tTermCount cfg.threads :=
                countP_pos_of_idx (fun x => x == PC.tTerm) cfg.threads tid .tTerm hget rfl
              have hdec := tTermCount_set_decr cfg.threads tid .tTerm .tReset hget rfl rfl
              refine ⟨hmx2, honly2 .tReset rfl, ?_, ?_, ?_⟩
              · show cfg.termCount + 1 + tTermCount (cfg.threads.set tid PC.tReset) ≤ 1
                omega
              · intro hl
                exfalso
                revert hl
                rcases hp : cfg.sup.process with _ | b <;> simp [Sup.procLive, hp]
              · intro _
                exact hwit .tReset rfl
          case tReset =>
              simp only [stepThread] at hst
              simp only [Option.some.injEq, Prod.mk.injEq] at hst
              obtain ⟨rfl, rfl, rfl, rfl⟩ := hst
              refine ⟨hmx2, honly2 (.done .ok) rfl, ?_, ?_, ?_⟩
              · rw [tTermCount_set_eq cfg.threads tid .tReset (.done .ok) hget rfl]
                simpa using hsum
              · intro hl
                simp [Sup.procLive] at hl
              · intro hx
                simp at hx

theorem run_stopInv :
    ∀ (acts : List Act) (cfg cfg2 : Config), run cfg acts = some cfg2 →
      stopInv cfg → stopInv cfg2 := by
  intro acts
  induction acts with
  | nil =>
      intro cfg cfg2 h hi
      simp only [run, Option.some.injEq] at h
      subst h
      exact hi
  | cons a rest ih =>
      intro cfg cfg2 h hi
      simp only [run] at h
      rcases hs : step cfg a with _ | cmid
      · rw [hs] at h; simp at h
      · rw [hs] at h
        exact ih cmid cfg2 h (step_stopInv hs hi)

/-! ### Top-level prober characterizations -/

theorem wait_until_ready_timedOut_iff (env : ProbeEnv) (T : Nat) :
    (wait_until_ready env T).1 = .timedOut ↔
      ∀ k, 2 * k < T → noExitB env (2 * k) = true := by
  unfold wait_until_ready
  rw [waitLoop_timedOut_iff]
  constructor
  · intro hall k hk
    have h2 : k < waitIters T := by unfold waitIters; omega
    simpa using hall k h2
  · intro hall j hj
    have h2 : 2 * j < T := by unfold waitIters at hj; omega
    simpa using hall j h2

theorem wait_until_ready_exit (env : ProbeEnv) (T k : Nat) (hk : 2 * k < T)
    (hall : ∀ j, j < k → noExitB env (2 * j) = true) :
    wait_until_ready env T =
      probeCheck env (2 * k) k
        (waitLoop env (waitIters T - k - 1) (2 * k + 2) (k + 1)) := by
  unfold wait_until_ready
  have hk2 : k < waitIters T := by unfold waitIters; omega
  have hx := waitLoop_exit_at env (waitIters T) 0 0 k hk2
    (by intro j hj; simpa using hall j hj)
  simpa using hx

theorem wait_until_ready_canceled (env : ProbeEnv) (T k : Nat) (hk : 2 * k < T)
    (hall : ∀ j, j < k → noExitB env (2 * j) = true)
    (hstop : env.stopRequested (2 * k) = true) :
    wait_until_ready env T = (.canceled, 2 * k) := by
  rw [wait_until_ready_exit env T k hk hall]
  simp [probeCheck, hstop]

theorem wait_until_ready_exited (env : ProbeEnv) (T k : Nat) (hk : 2 * k < T)
    (hall : ∀ j, j < k → noExitB env (2 * j) = true)
    (hstop : env.stopRequested (2 * k) = false)
    (halive : env.procAlive (2 * k) = false) :
    wait_until_ready env T = (.procExited, 2 * k) := by
  rw [wait_until_ready_exit env T k hk hall]
  simp [probeCheck, hstop, halive]

theorem wait_until_ready_success (env : ProbeEnv) (T k : Nat) (hk : 2 * k < T)
    (hall : ∀ j, j < k → noExitB env (2 * j) = true)
    (hstop : env.stopRequested (2 * k) = false)
    (halive : env.procAlive (2 * k) = true)
    (hhttp : env.httpStatus (2 * k) = some 200) :
    wait_until_ready env T = (.ready (k + 1), 2 * k) := by
  rw [wait_until_ready_exit env T k hk hall]
  simp [probeCheck, hstop, halive, hhttp]

/-! ### Initial configurations satisfy the invariants -/

theorem flagsMutex_initStartCfg (n : Nat) : flagsMutex (initStartCfg n) := by
  constructor
  · show (List.replicate n PC.sEntry).countP (fun pc => inStartRegion pc) = _
    rw [countP_replicate_zero (fun pc => inStartRegion pc) PC.sEntry rfl n]
    rfl
  · show (List.replicate n PC.sEntry).countP (fun pc => inStopRegion pc) = _
    rw [countP_replicate_zero (fun pc => inStopRegion pc) PC.sEntry rfl n]
    rfl

theorem stopInv_initStopCfg (p : Option Bool) (n : Nat) :
    stopInv (initStopCfg p n) := by
  refine ⟨⟨?_, ?_⟩, ?_, ?_, ?_, ?_⟩
  · show (List.replicate n PC.tEntry).countP (fun pc => inStartRegion pc) = _
    rw [countP_replicate_zero (fun pc => inStartRegion pc) PC.tEntry rfl n]
    rfl
  · show (List.replicate n PC.tEntry).countP (fun pc => inStopRegion pc) = _
    rw [countP_replicate_zero (fun pc => inStopRegion pc) PC.tEntry rfl n]
    rfl
  · intro pc hpc
    have hp2 : pc = PC.tEntry := List.eq_of_mem_replicate hpc
    subst hp2
    rfl
  · show 0 + (List.replicate n PC.tEntry).countP (fun pc => pc == PC.tTerm) ≤ 1
    rw [countP_replicate_zero (fun pc => pc == PC.tTerm) PC.tEntry rfl n]
    omega
  · intro _
    rfl
  · intro hx
    simp [initStopCfg, idleSup] at hx

/-! ### Shared facts about the claimed-start path -/

theorem startClaimed_final (spawn : SpawnOutcome) (env : ProbeEnv) (T : Nat) (s : Sup) :
    (startClaimed spawn env T s).1.startInProgress = false ∧
    (startClaimed spawn env T s).1.lastStartError = (startClaimed spawn env T s).2 ∧
    (startClaimed spawn env T s).1.process ≠ some false := by
  cases spawn <;>
    exact ⟨(finalizeStart_spec _ _).1, (finalizeStart_spec _ _).2.1,
      (finalizeStart_spec _ _).2.2.2.2⟩

/-! ### Concrete prober environments used in counterexamples and witnesses -/

/-- No stop request, process always alive, every HTTP attempt fails at the
transport level. -/
def envQuiet : ProbeEnv :=
  { stopRequested := fun _ => false, procAlive := fun _ => true
    httpStatus := fun _ => none }

/-- A stop is requested at time 3 (after the poll checkpoint at time 2 and
before the deadline), the process stays alive, every HTTP attempt fails. -/
def envStopAt3 : ProbeEnv :=
  { stopRequested := fun t => decide (3 ≤ t), procAlive := fun _ => true
    httpStatus := fun _ => none }

/-- A stop is requested from time 2 on, the process stays alive, every
HTTP attempt fails. -/
def envStopAt2 : ProbeEnv :=
  { stopRequested := fun t => decide (2 ≤ t), procAlive := fun _ => true
    httpStatus := fun _ => none }

/-! ### Claim theorems -/

/-- C1, counterexample.  Two threads call `start` concurrently on an idle
supervisor.  First schedule: thread 0 claims, spawns, publishes the
handle; thread 1 then takes the fast path (live handle) and returns
success; thread 0 subsequently exhausts the readiness deadline and raises
the timeout failure — a single spawn occurred but the two calls return
different outcomes, refuting "every one of the N calls returns the same
outcome".  Second schedule: thread 0 claims and spawns, the process dies,
thread 0 settles the failed epoch; thread 1 then claims a fresh epoch and
spawns again — two actual spawns, refuting "exactly one thread performs
the actual process spawn". -/
theorem claim_C1_counterexample :
    ((run (initStartCfg 2) [.thread 0 .go, .thread 0 .spawnOk, .thread 0 .go,
        .thread 1 .go, .thread 0 .deadline, .thread 0 .go]).map
      (fun c => (c.threads, c.spawnCount)) =
      some ([.done (.error .readyTimeout), .done .ok], 1)) ∧
    ((run (initStartCfg 2) [.thread 0 .go, .thread 0 .spawnOk, .thread 0 .go,
        .procDies, .thread 0 .httpErr, .thread 0 .go, .thread 1 .go,
        .thread 1 .spawnOk]).map
      (fun c => c.spawnCount) = some 2) :=
  ⟨rfl, rfl⟩

/-- C1 (amended): for every N ≥ 1 threads calling `start` concurrently on
an idle supervisor, at every reachable point of every interleaving at most
one thread is inside the spawn-and-wait-for-ready sequence (so spawns
never overlap and no thread performs a redundant concurrent spawn), and
`startInProgress` / `stopInProgress` are true exactly while such a
claiming thread exists; the N calls need not all return the same outcome
(a thread that observes the published live handle returns success even if
the spawning thread later fails, and a thread arriving after a failed
epoch has settled may claim a fresh spawn). -/
theorem claim_C1_single_spawner :
    ∀ (n : Nat) (acts : List Act) (cfg2 : Config),
      run (initStartCfg n) acts = some cfg2 →
      startRegionCount cfg2.threads ≤ 1 ∧
      startRegionCount cfg2.threads = (if cfg2.sup.startInProgress then 1 else 0) ∧
      stopRegionCount cfg2.threads = (if cfg2.sup.stopInProgress then 1 else 0) := by
  intro n acts cfg2 hrun
  have hm := run_flagsMutex acts (initStartCfg n) cfg2 hrun (flagsMutex_initStartCfg n)
  refine ⟨?_, hm.1, hm.2⟩
  rw [hm.1]
  split <;> omega

/-- Configuration reached from two idle `start` callers after thread 0
claims the start. -/
def cfgC1w : Config :=
  { sup := { process := none, startInProgress := true, stopInProgress := false
             stopRequested := false, lastStartError := none }
    threads := [.sSpawn, .sEntry], spawnCount := 0, termCount := 0 }

theorem claim_C1_witness :
    startRegionCount cfgC1w.threads ≤ 1 ∧
    startRegionCount cfgC1w.threads = (if cfgC1w.sup.startInProgress then 1 else 0) ∧
    stopRegionCount cfgC1w.threads = (if cfgC1w.sup.stopInProgress then 1 else 0) :=
  claim_C1_single_spawner 2 [.thread 0 .go] cfgC1w rfl

/-- C2, counterexample.  From an idle supervisor, a `start` caller claims
the start (setting `_start_in_progress`), then a `stop` caller runs its
entry section (lines 149–160): it sets `_stop_requested`, claims
`_stop_in_progress`, and enters the timed wait of line 158 — reaching a
state in which `_start_in_progress` and `_stop_in_progress` are both
true simultaneously. -/
theorem claim_C2_counterexample :
    (run initStartStopCfg [.thread 0 .go, .thread 1 .go]).map
      (fun c => (c.sup.startInProgress, c.sup.stopInProgress)) =
      some (true, true) :=
  rfl

/-- C2 (amended): `startInProgress` and `stopInProgress` CAN be both true
simultaneously — `stop` claims `stopInProgress` during its initial
bookkeeping even while a start is still settling, and then waits at line
158 — but each flag individually always mirrors exactly one claiming
thread: in every configuration reachable from one satisfying the
correspondence, `startInProgress` is true iff exactly one thread is in the
claimed section of `start`, and `stopInProgress` is true iff exactly one
thread is in the claimed section of `stop`. -/
theorem claim_C2_flags_correspondence :
    ∀ (cfg : Config) (acts : List Act) (cfg2 : Config),
      flagsMutex cfg → run cfg acts = some cfg2 →
      startRegionCount cfg2.threads = (if cfg2.sup.startInProgress then 1 else 0) ∧
      stopRegionCount cfg2.threads = (if cfg2.sup.stopInProgress then 1 else 0) :=
  fun cfg acts cfg2 hm hrun => run_flagsMutex acts cfg cfg2 hrun hm

/-- The both-flags-true configuration of the C2 counterexample. -/
def cfgC2w : Config :=
  { sup := { process := none, startInProgress := true, stopInProgress := true
             stopRequested := true, lastStartError := none }
    threads := [.sSpawn, .tWaitStart], spawnCount := 0, termCount := 0 }

theorem claim_C2_witness :
    startRegionCount cfgC2w.threads = (if cfgC2w.sup.startInProgress then 1 else 0) ∧
    stopRegionCount cfgC2w.threads = (if cfgC2w.sup.stopInProgress then 1 else 0) :=
  claim_C2_flags_correspondence initStartStopCfg [.thread 0 .go, .thread 1 .go]
    cfgC2w (by decide) rfl

/-- C3, counterexample.  A `start` from idle whose spawn raises leaves
`_last_start_error` holding the error — it is recorded by the `finally`
block, not cleared — and a `start` whose readiness poll times out with the
process still alive leaves the supervisor holding a live handle (state not
idle) while the call raises the timeout error. -/
theorem claim_C3_counterexample :
    (start_fromIdle .raised envQuiet 60).1.lastStartError = some Err.spawnRaw ∧
    (start_fromIdle .ok envQuiet 4).1.process = some true ∧
    (start_fromIdle .ok envQuiet 4).2 = some Err.readyTimeout :=
  ⟨rfl, rfl, rfl⟩

/-- C3 (amended): every failing `start` from idle returns with
`startInProgress` cleared, the raised error recorded (not cleared) in
`lastStartError`, and no dead handle retained (the handle is `None` unless
the process is still alive, as after a readiness timeout); a subsequent
call can still retry cleanly because claiming the next start sets
`startInProgress` and clears `lastStartError`. -/
theorem claim_C3_failed_start_state :
    ∀ (spawn : SpawnOutcome) (env : ProbeEnv) (T : Nat) (s1 : Sup) (e : Err),
      start_fromIdle spawn env T = (s1, some e) →
      s1.startInProgress = false ∧ s1.lastStartError = some e ∧
      s1.process ≠ some false ∧
      (claimStart s1).lastStartError = none ∧
      (claimStart s1).startInProgress = true := by
  intro spawn env T s1 e h
  have hh := startClaimed_final spawn env T (claimStart idleSup)
  have h1 : (startClaimed spawn env T (claimStart idleSup)).1 = s1 := by
    rw [show startClaimed spawn env T (claimStart idleSup) = start_fromIdle spawn env T
      from rfl, h]
  have h2 : (startClaimed spawn env T (claimStart idleSup)).2 = some e := by
    rw [show startClaimed spawn env T (claimStart idleSup) = start_fromIdle spawn env T
      from rfl, h]
  refine ⟨?_, ?_, ?_, rfl, rfl⟩
  · rw [← h1]; exact hh.1
  · rw [← h1, ← h2]; exact hh.2.1
  · rw [← h1]; exact hh.2.2

/-- The final state of the C3 witness run (spawn raises). -/
def supC3w : Sup :=
  { process := none, startInProgress := false, stopInProgress := false
    stopRequested := false, lastStartError := some Err.spawnRaw }

theorem claim_C3_witness :
    supC3w.startInProgress = false ∧ supC3w.lastStartError = some Err.spawnRaw ∧
    supC3w.process ≠ some false ∧
    (claimStart supC3w).lastStartError = none ∧
    (claimStart supC3w).startInProgress = true :=
  claim_C3_failed_start_state .raised envQuiet 60 supC3w .spawnRaw rfl

/-- C4, counterexample.  `pull_model` propagates the raw
`CalledProcessError` of a failed `ollama pull` (line 134, `check=True`
with no handler), and the spawning caller of `start` sees the raw
exception of `subprocess.Popen` re-raised by the bare `raise` of line 109
— neither is a supervisor-constructed error category. -/
theorem claim_C4_counterexample :
    (pull_model "llava" (some []) false).1 = some Err.pullRaw ∧
    Err.pullRaw.isRuntimeError = false ∧
    (start_fromIdle .raised envQuiet 60).2 = some Err.spawnRaw ∧
    Err.spawnRaw.isRuntimeError = false :=
  ⟨rfl, rfl, rfl, rfl⟩

/-- C4 (amended): the errors the supervisor itself constructs — the
prober's cancellation / early-exit / timeout errors and the errors a
waiting or canceled `start` caller raises — are supervisor
`RuntimeError`s, and `pull_model` surfaces no listing failure (its only
error is the pull failure); however the spawning caller sees the raw
spawn exception re-raised, and `pull_model`'s pull failure is the raw
`CalledProcessError`, so a caller of `startClaimed` sees either the raw
spawn exception or a supervisor `RuntimeError`. -/
theorem claim_C4_error_categories :
    (∀ (r : ProbeResult) (e : Err), probeErr r = some e → e.isRuntimeError = true) ∧
    (∀ (s : Sup) (c : Choice) (s2 : Sup) (pc2 : PC) (b1 b2 : Bool) (e : Err),
        stepThread s .sWaitStart c = some (s2, pc2, b1, b2) →
        pc2 = .done (.error e) → e.isRuntimeError = true) ∧
    (∀ (s : Sup) (c : Choice) (s2 : Sup) (pc2 : PC) (b1 b2 : Bool) (e : Err),
        stepThread s .sEntry c = some (s2, pc2, b1, b2) →
        pc2 = .done (.error e) → e.isRuntimeError = true) ∧
    (∀ (m : String) (l : Option (List (Option String))) (ok : Bool) (e : Err),
        (pull_model m l ok).1 = some e → e = .pullRaw) ∧
    (∀ (spawn : SpawnOutcome) (env : ProbeEnv) (T : Nat) (s : Sup) (e : Err),
        (startClaimed spawn env T s).2 = some e →
        e = .spawnRaw ∨ e.isRuntimeError = true) := by
  refine ⟨?_, ?_, ?_, ?_, ?_⟩
  · intro r e h
    cases r <;> simp only [probeErr] at h <;>
      [skip; injection h with h2; injection h with h2; injection h with h2] <;>
      first
        | exact absurd h (by simp)
        | (subst h2; rfl)
  · intro s c s2 pc2 b1 b2 e hst he
    simp only [stepThread] at hst
    split at hst
    · simp at hst
    · rcases hw : waiterDecision s <;> rw [hw] at hst <;>
        simp only [Option.some.injEq, Prod.mk.injEq] at hst <;>
        obtain ⟨rfl, rfl, rfl, rfl⟩ := hst
      · simp at he
      · have h2 : Err.startupWrapped = e := by simpa using he
        subst h2
        rfl
      · have h2 : Err.didNotComplete = e := by simpa using he
        subst h2
        rfl
  · intro s c s2 pc2 b1 b2 e hst he
    simp only [stepThread] at hst
    rcases hd : startEntryDecision s <;> rw [hd] at hst <;>
      simp only [Option.some.injEq, Prod.mk.injEq] at hst
    · simp at hst
    · obtain ⟨rfl, rfl, rfl, rfl⟩ := hst
      simp at he
    · obtain ⟨rfl, rfl, rfl, rfl⟩ := hst
      simp at he
    · obtain ⟨rfl, rfl, rfl, rfl⟩ := hst
      have h2 : Err.canceledPre = e := by simpa using he
      subst h2
      rfl
    · obtain ⟨rfl, rfl, rfl, rfl⟩ := hst
      simp at he
  · intro m l ok e h
    by_cases hm0 : m = ""
    · simp [pull_model, hm0] at h
    · by_cases hp : model_present m l = true
      · simp [pull_model, hm0, hp] at h
      · by_cases hok : ok = true
        · simp [pull_model, hm0, hp, hok] at h
        · have hok2 : ok = false := by simpa using hok
          have h2 : Err.pullRaw = e := by
            simpa [pull_model, hm0, hp, hok2] using h
          exact h2.symm
  · intro spawn env T s e h
    cases spawn
    · simp only [startClaimed] at h
      rcases hr : (wait_until_ready env T).1 <;> rw [hr] at h <;>
        simp only [probeErr] at h
      · exact absurd h (by simp)
      · have h2 : Err.canceledPoll = e := by simpa using h
        subst h2
        exact Or.inr rfl
      · have h2 : Err.exitedBeforeReady = e := by simpa using h
        subst h2
        exact Or.inr rfl
      · have h2 : Err.readyTimeout = e := by simpa using h
        subst h2
        exact Or.inr rfl
    · have h2 : Err.spawnRaw = e := by simpa [startClaimed] using h
      exact Or.inl h2.symm

theorem claim_C4_witness :
    Err.canceledPoll.isRuntimeError = true := by
  have h := claim_C4_error_categories.1 .canceled Err.canceledPoll rfl
  exact h

/-- C5 (confirmed): a thread entering the waiter loop of `start` is
blocked exactly while `_start_in_progress` holds; once woken it returns
success iff it observes a live handle, raises the wrapped failure iff no
live handle but a recorded `lastStartError` is present, and raises the
generic "did not complete" failure iff neither — three conditions that
are exhaustive and mutually exclusive by construction. -/
theorem claim_C5_waiter_trichotomy :
    (∀ (s : Sup) (c : Choice), s.startInProgress = true →
        stepThread s .sWaitStart c = none) ∧
    (∀ (s : Sup) (c : Choice), s.startInProgress = false → s.procLive = true →
        stepThread s .sWaitStart c = some (s, .done .ok, false, false)) ∧
    (∀ (s : Sup) (c : Choice) (e : Err), s.startInProgress = false →
        s.procLive = false → s.lastStartError = some e →
        stepThread s .sWaitStart c =
          some (s, .done (.error .startupWrapped), false, false)) ∧
    (∀ (s : Sup) (c : Choice), s.startInProgress = false → s.procLive = false →
        s.lastStartError = none →
        stepThread s .sWaitStart c =
          some (s, .done (.error .didNotComplete), false, false)) ∧
    (∀ s : Sup, waiterDecision s = .running ↔ s.procLive = true) ∧
    (∀ (s : Sup) (e : Err), waiterDecision s = .wrapped e ↔
        (s.procLive = false ∧ s.lastStartError = some e)) ∧
    (∀ s : Sup, waiterDecision s = .didNotComplete ↔
        (s.procLive = false ∧ s.lastStartError = none)) := by
  refine ⟨?_, ?_, ?_, ?_, ?_, ?_, ?_⟩
  · intro s c h
    simp [stepThread, h]
  · intro s c h1 h2
    simp [stepThread, waiterDecision, h1, h2]
  · intro s c e h1 h2 h3
    simp [stepThread, waiterDecision, h1, h2, h3]
  · intro s c h1 h2 h3
    simp [stepThread, waiterDecision, h1, h2, h3]
  · intro s
    unfold waiterDecision
    rcases hl : s.procLive
    · cases s.lastStartError <;> simp [hl]
    · simp [hl]
  · intro s e
    unfold waiterDecision
    rcases hl : s.procLive
    · cases he : s.lastStartError <;> simp [hl, he]
    · simp [hl]
  · intro s
    unfold waiterDecision
    rcases hl : s.procLive
    · cases he : s.lastStartError <;> simp [hl, he]
    · simp [hl]

theorem claim_C5_witness :
    stepThread { idleSup with lastStartError := some Err.spawnRaw } .sWaitStart .go =
      some ({ idleSup with lastStartError := some Err.spawnRaw },
        .done (.error .startupWrapped), false, false) :=
  claim_C5_waiter_trichotomy.2.2.1 { idleSup with lastStartError := some Err.spawnRaw }
    .go Err.spawnRaw rfl rfl rfl

/-- C6 (confirmed): the readiness prober polls at the fixed 2-second
interval (its checkpoints are exactly the times `2k < deadline`); before
each attempt it checks `stopRequested` first and process liveness second,
failing fast with the distinct cancellation / process-exited errors; a
transport-level failure or non-200 status at a checkpoint (part of
`noExitB`) merely continues the loop, so a later 200 within the deadline
still succeeds; and the prober times out if and only if every checkpoint
before the deadline passed without a successful response or a fail-fast
trip; the configurable deadline defaults to 60. -/
theorem claim_C6_readiness_prober :
    (∀ (env : ProbeEnv) (T : Nat),
        (wait_until_ready env T).1 = .timedOut ↔
          ∀ k, 2 * k < T → noExitB env (2 * k) = true) ∧
    (∀ (env : ProbeEnv) (T k : Nat), 2 * k < T →
        (∀ j, j < k → noExitB env (2 * j) = true) →
        env.stopRequested (2 * k) = true →
        wait_until_ready env T = (.canceled, 2 * k)) ∧
    (∀ (env : ProbeEnv) (T k : Nat), 2 * k < T →
        (∀ j, j < k → noExitB env (2 * j) = true) →
        env.stopRequested (2 * k) = false → env.procAlive (2 * k) = false →
        wait_until_ready env T = (.procExited, 2 * k)) ∧
    (∀ (env : ProbeEnv) (T k : Nat), 2 * k < T →
        (∀ j, j < k → noExitB env (2 * j) = true) →
        env.stopRequested (2 * k) = false → env.procAlive (2 * k) = true →
        env.httpStatus (2 * k) = some 200 →
        wait_until_ready env T = (.ready (k + 1), 2 * k)) ∧
    ollamaReadyTimeout none = 60 ∧
    (ProbeResult.canceled ≠ ProbeResult.procExited ∧
      ProbeResult.canceled ≠ ProbeResult.timedOut ∧
      ProbeResult.procExited ≠ ProbeResult.timedOut) := by
  refine ⟨wait_until_ready_timedOut_iff, wait_until_ready_canceled,
    wait_until_ready_exited, wait_until_ready_success, rfl, by simp, by simp, by simp⟩

theorem claim_C6_witness :
    wait_until_ready envStopAt2 60 = (.canceled, 2) ∧
    wait_until_ready envQuiet 4 = (.timedOut, 4) := by
  constructor
  · exact claim_C6_readiness_prober.2.1 envStopAt2 60 1 (by decide) (by decide)
      (by decide)
  · have h := (claim_C6_readiness_prober.1 envQuiet 4).mpr (by
      intro k hk
      have hk2 : k ≤ 1 := by omega
      interval_cases k <;> decide)
    have h2 : (wait_until_ready envQuiet 4).2 = 4 := rfl
    rcases hr : wait_until_ready envQuiet 4 with ⟨a, b⟩
    rw [hr] at h h2
    simp only at h h2
    rw [h, h2]

/-- C7, counterexample.  In `envStopAt3` a stop is requested at time 3 —
strictly inside the polling window of a start with deadline 4 (poll
checkpoints at times 0 and 2, loop exit at time 4) — yet the start fails
with the readiness-timeout error of the startup-failure category, not the
startup-canceled category: the cancellation flag was set after the last
checkpoint, so the prober never observed it. -/
theorem claim_C7_counterexample :
    envStopAt3.stopRequested 3 = true ∧ 3 < 4 ∧
    (start_fromIdle .ok envStopAt3 4).2 = some Err.readyTimeout ∧
    Err.readyTimeout.isCanceledErr = false ∧
    Err.readyTimeout.isStartupFailureErr = true :=
  ⟨by decide, by decide, rfl, rfl, rfl⟩

/-- C7 (amended): whenever `start`'s pre-claim check runs with a stop
requested (and no live process, no in-flight start or stop), the call
fails with the startup-canceled error, and whenever the prober reaches a
pre-attempt checkpoint with `stopRequested` set, the poll ends canceled
and the claiming start raises the canceled-during-poll error; the
canceled category is disjoint from the startup-failure category.  A stop
requested after the final checkpoint may instead surface as a timeout (or
as success), because cancellation is only observed at the cooperative
checkpoints. -/
theorem claim_C7_cancel_checkpoints :
    (∀ s : Sup, s.stopInProgress = false → s.procLive = false →
        s.startInProgress = false → s.stopRequested = true →
        startEntryDecision s = .canceled) ∧
    (∀ (env : ProbeEnv) (T k : Nat), 2 * k < T →
        (∀ j, j < k → noExitB env (2 * j) = true) →
        env.stopRequested (2 * k) = true →
        (wait_until_ready env T).1 = .canceled) ∧
    (∀ (env : ProbeEnv) (T : Nat) (s : Sup),
        (wait_until_ready env T).1 = .canceled →
        (startClaimed .ok env T s).2 = some Err.canceledPoll) ∧
    (∀ e : Err, e.isCanceledErr = true → e.isStartupFailureErr = false) ∧
    Err.canceledPre.isCanceledErr = true ∧
    Err.canceledPoll.isCanceledErr = true := by
  refine ⟨?_, ?_, ?_, ?_, rfl, rfl⟩
  · intro s h1 h2 h3 h4
    exact startEntryDecision_canceled h1 h2 h3 h4
  · intro env T k hk hall hstop
    rw [wait_until_ready_canceled env T k hk hall hstop]
  · intro env T s h
    show probeErr (wait_until_ready env T).1 = some Err.canceledPoll
    rw [h]
    rfl
  · intro e he
    cases e <;> first | rfl | exact absurd he (by decide)

theorem claim_C7_witness :
    startEntryDecision { idleSup with stopRequested := true } = .canceled ∧
    (wait_until_ready envStopAt2 60).1 = .canceled :=
  ⟨claim_C7_cancel_checkpoints.1 { idleSup with stopRequested := true } rfl rfl rfl rfl,
   claim_C7_cancel_checkpoints.2.1 envStopAt2 60 1 (by decide) (by decide) (by decide)⟩

/-- C8 (confirmed): `pull_model` returns immediately without the pull when
the listing contains the exact model name; an empty model name returns
successfully with neither the listing query nor the pull performed; a
failed listing query (`_model_present` returning `False` from its
`except` clause) is treated as "not present", so the blocking pull runs
and the listing failure is never surfaced; presence is exact name
equality over the listing entries. -/
theorem claim_C8_pull_model :
    (∀ (m : String) (l : Option (List (Option String))) (ok : Bool),
        m ≠ "" → model_present m l = true →
        pull_model m l ok = (none, { queriedListing := true, ranPull := false })) ∧
    (∀ (l : Option (List (Option String))) (ok : Bool),
        pull_model "" l ok = (none, { queriedListing := false, ranPull := false })) ∧
    (∀ m : String, model_present m none = false) ∧
    (∀ (m : String) (ok : Bool), m ≠ "" →
        pull_model m none ok =
          ((if ok then none else some Err.pullRaw),
            { queriedListing := true, ranPull := true })) ∧
    (∀ (m : String) (names : List (Option String)),
        model_present m (some names) = names.any (fun n => n == some m)) := by
  refine ⟨?_, ?_, ?_, ?_, ?_⟩
  · intro m l ok hm0 hp
    simp [pull_model, hm0, hp]
  · intro l ok
    simp [pull_model]
  · intro m
    rfl
  · intro m ok hm0
    cases ok <;> simp [pull_model, hm0, model_present]
  · intro m names
    rfl

theorem claim_C8_witness :
    pull_model "m" (some [some "m"]) true =
      (none, { queriedListing := true, ranPull := false }) :=
  claim_C8_pull_model.1 "m" (some [some "m"]) true (by decide) (by decide)

/-- C9 (confirmed): over any interleaving of any number of concurrent
`stop` calls on a supervisor in any process state, at most one
termination attempt is performed, and once every call has returned both
`stopInProgress` and `stopRequested` are false; sequentially, a second
`stop` performs no termination attempt (the first cleared the handle),
every `stop` leaves both flags cleared and the handle `None`, and a
`stop` with nothing running performs no termination attempt at all. -/
theorem claim_C9_stop_idempotent :
    (∀ (p : Option Bool) (n : Nat) (acts : List Act) (cfg2 : Config),
        run (initStopCfg p n) acts = some cfg2 →
        cfg2.termCount ≤ 1 ∧
        ((∀ pc ∈ cfg2.threads, ∃ o : Outcome, pc = .done o) →
          cfg2.sup.stopInProgress = false ∧ cfg2.sup.stopRequested = false)) ∧
    (∀ s : Sup, (stop_noConcurrency (stop_noConcurrency s).1).2 = false) ∧
    (∀ s : Sup,
        (stop_noConcurrency s).1.stopInProgress = false ∧
        (stop_noConcurrency s).1.stopRequested = false ∧
        (stop_noConcurrency s).1.process = none) ∧
    (∀ s : Sup, s.procLive = false → (stop_noConcurrency s).2 = false) := by
  refine ⟨?_, ?_, ?_, ?_⟩
  · intro p n acts cfg2 hrun
    obtain ⟨hmx, honly, hsum, hlive, hreq⟩ :=
      run_stopInv acts (initStopCfg p n) cfg2 hrun (stopInv_initStopCfg p n)
    constructor
    · omega
    · intro hdone
      constructor
      · have hz : stopRegionCount cfg2.threads = 0 := by
          unfold stopRegionCount
          rw [List.countP_eq_zero]
          intro pc hpc
          obtain ⟨o, rfl⟩ := hdone pc hpc
          simp [inStopRegion]
        have hm2 := hmx.2
        rw [hz] at hm2
        rcases hb : cfg2.sup.stopInProgress
        · rfl
        · rw [hb] at hm2
          simp at hm2
      · rcases hb : cfg2.sup.stopRequested
        · rfl
        · obtain ⟨j, pcw, hj, hu⟩ := hreq hb
          obtain ⟨o, rfl⟩ := hdone pcw (List.getElem?_mem hj)
          simp [stopUnfinished] at hu
  · intro s
    simp only [stop_noConcurrency]
    split_ifs <;> simp_all [Sup.procLive]
  · intro s
    simp only [stop_noConcurrency]
    split_ifs <;> exact ⟨rfl, rfl, rfl⟩
  · intro s hl
    simp only [stop_noConcurrency]
    split_ifs with hc
    · have hx : s.procLive = true := by simpa [Sup.procLive] using hc
      rw [hx] at hl
      simp at hl
    · rfl

/-- The final configuration of one `stop` call terminating a live
process. -/
def cfgC9w : Config :=
  { sup := { process := none, startInProgress := false, stopInProgress := false
             stopRequested := false, lastStartError := none }
    threads := [.done .ok], spawnCount := 0, termCount := 1 }

theorem claim_C9_witness :
    cfgC9w.termCount ≤ 1 ∧
    ((∀ pc ∈ cfgC9w.threads, ∃ o : Outcome, pc = .done o) →
      cfgC9w.sup.stopInProgress = false ∧ cfgC9w.sup.stopRequested = false) :=
  claim_C9_stop_idempotent.1 (some true) 1
    [.thread 0 .go, .thread 0 .go, .thread 0 .go] cfgC9w rfl

/-- C10, counterexample.  Thread 0 claims the start, spawns and publishes
the live handle; thread 1 then calls `start`, takes the fast path of line
67 and returns successfully — at the moment of its return the shared
`_start_in_progress` flag is still true (it belongs to thread 0's
in-flight start), refuting "on every exit path, upon completion the
`_start_in_progress` flag is false". -/
theorem claim_C10_counterexample :
    (run (initStartCfg 2) [.thread 0 .go, .thread 0 .spawnOk, .thread 0 .go,
        .thread 1 .go]).map
      (fun c => ((c.threads)[1]?, c.sup.startInProgress)) =
      some (some (.done .ok), true) :=
  rfl

/-- C10 (amended): for the call that claims the start, every exit path of
the spawn-and-wait sequence (spawn failure, readiness success,
cancellation, early exit, timeout) runs the `finally` finalization: upon
completion `startInProgress` is false, the raised error (or `None` on
success) is recorded in `lastStartError`, and the handle never refers to
an already-exited process (it is cleared in that case) — so no failure
leaves the supervisor stuck in `Starting` or holding a dead handle.  A
non-claiming fast-path return can however complete while another
thread's `startInProgress` is still true. -/
theorem claim_C10_finalization :
    ∀ (spawn : SpawnOutcome) (env : ProbeEnv) (T : Nat) (s : Sup),
      (startClaimed spawn env T s).1.startInProgress = false ∧
      (startClaimed spawn env T s).1.lastStartError = (startClaimed spawn env T s).2 ∧
      (startClaimed spawn env T s).1.process ≠ some false :=
  fun spawn env T s => startClaimed_final spawn env T s

theorem claim_C10_witness :
    (startClaimed .ok envQuiet 4 (claimStart idleSup)).1.startInProgress = false ∧
    (startClaimed .ok envQuiet 4 (claimStart idleSup)).1.lastStartError =
      (startClaimed .ok envQuiet 4 (claimStart idleSup)).2 ∧
    (startClaimed .ok envQuiet 4 (claimStart idleSup)).1.process ≠ some false :=
  claim_C10_finalization .ok envQuiet 4 (claimStart idleSup)

end OllamaRunner
